import Mathlib

/-!
Shallow embedding of the concurrent load-testing engine of the
AI-Model-Testing-Framework repository (file src/performance/tester.py):
the functions `load_test`, `_execute_request` and `stress_test` of the
`PerformanceTester` class, and proofs of the specified properties.

Modelling conventions.
Wall-clock quantities (latencies, durations, elapsed times) and resource
samples are rational numbers.  The behaviour of one invocation of the
user-supplied work function is a `WorkOutcome`: it either returns normally
(with the measured latency) or raises an exception carrying a message; the
work function is modelled as a map from the index of the dispatched request
to the outcome of its invocation.  The order in which `as_completed` yields
the futures is an explicit list `completion` of request indices; theorems
that need every dispatched request to complete exactly once assume that
`completion` is a permutation of `range num_requests`.  An exception
escaping `load_test` is the `Except.error` constructor; `ThreadPoolExecutor`
raises `ValueError` when `max_workers <= 0`, which the embedding reproduces.
-/

/-- The result dictionary produced by one call of `_execute_request`. -/
structure RequestResult where
  success : Bool
  latency : Option ℚ
  error : Option String
  deriving Repr, DecidableEq

/-- Outcome of one invocation of the user-supplied work function: either it
returns normally after the measured latency, or it raises an exception whose
string rendering is `msg`. -/
inductive WorkOutcome where
  | ok (latency : ℚ)
  | err (msg : String)
  deriving Repr, DecidableEq

/-- `WorkOutcome.isOk o` is true when the invocation returned normally. -/
def WorkOutcome.isOk : WorkOutcome → Bool
  | .ok _ => true
  | .err _ => false

/-- The `PerformanceMetrics` dataclass of tester.py. -/
structure PerformanceMetrics where
  total_requests : ℤ
  successful_requests : ℤ
  failed_requests : ℤ
  avg_latency_ms : ℚ
  min_latency_ms : ℚ
  max_latency_ms : ℚ
  p50_latency_ms : ℚ
  p95_latency_ms : ℚ
  p99_latency_ms : ℚ
  throughput_rps : ℚ
  total_duration_s : ℚ
  cpu_usage_percent : ℚ
  memory_usage_mb : ℚ
  deriving Repr, DecidableEq

/-- Truncation of a rational towards zero: the behaviour of the Python `int`
conversion applied to a float. -/
def pythonInt (q : ℚ) : ℤ := if q < 0 then -⌊-q⌋ else ⌊q⌋

/-- `np.mean`: the sum divided by the length. -/
def npMean (xs : List ℚ) : ℚ := xs.sum / (xs.length : ℚ)

/-- `np.min` over a nonempty list; `0` on the empty list, which tester.py
never feeds to it. -/
def npMin : List ℚ → ℚ
  | [] => 0
  | x :: rest => rest.foldl min x

/-- `np.max` over a nonempty list; `0` on the empty list, which tester.py
never feeds to it. -/
def npMax : List ℚ → ℚ
  | [] => 0
  | x :: rest => rest.foldl max x

/-- Linear interpolation between the order statistics of an ascending list
`s` at fractional index `h`, the core of the default (linear) interpolation
method of `np.percentile`: with `lo = ⌊h⌋` and `hi = min (lo + 1) (n - 1)`,
the value is `s[lo] + (h - lo) * (s[hi] - s[lo])`. -/
def interpAt (s : List ℚ) (h : ℚ) : ℚ :=
  let lo : ℕ := (⌊h⌋).toNat
  let hi : ℕ := min (lo + 1) (s.length - 1)
  s.getD lo 0 + (h - (⌊h⌋ : ℚ)) * (s.getD hi 0 - s.getD lo 0)

/-- `np.percentile xs p` with the default linear interpolation method: sort
ascending, then interpolate at fractional index `(p / 100) * (n - 1)`. -/
def npPercentile (xs : List ℚ) (p : ℚ) : ℚ :=
  let s := xs.insertionSort (· ≤ ·)
  interpAt s ((p / 100) * ((s.length : ℚ) - 1))

/-- `PerformanceTester._execute_request`: runs one invocation of the work
function inside try/except and returns a success record with the measured
latency, or a failure record carrying the string rendering of the exception;
the exception is never re-raised and the invocation is never repeated. -/
def _execute_request : WorkOutcome → RequestResult
  | .ok latency => { success := true, latency := some latency, error := none }
  | .err e => { success := false, latency := none, error := some e }

/-- The result-collection loop of `load_test`: the latencies of the
successful results, in completion order. -/
def collect_latencies (results : List RequestResult) : List ℚ :=
  results.filterMap fun r => if r.success then r.latency else none

/-- The result-collection loop of `load_test`: the error strings of the
failed results, in completion order. -/
def collect_errors (results : List RequestResult) : List String :=
  results.filterMap fun r => if r.success then none else r.error

/-- Per-run environment of one `load_test` call: the wall-clock span from
the first dispatch to the last completion, and the resource samples the
background monitor thread collected. -/
structure RunEnv where
  total_duration : ℚ
  cpu_samples : List ℚ
  memory_samples : List ℚ
  deriving Repr, DecidableEq

/-- The results the `as_completed` loop consumes: request index `i` of the
completion order carries the record `_execute_request` built from the
behaviour `test_function i` of that invocation of the work function. -/
def run_results (test_function : ℕ → WorkOutcome) (completion : List ℕ) : List RequestResult :=
  completion.map fun i => _execute_request (test_function i)

/-- The successful-latency list of one run. -/
def successful_latencies (test_function : ℕ → WorkOutcome) (completion : List ℕ) : List ℚ :=
  collect_latencies (run_results test_function completion)

/-- `PerformanceTester.load_test`.  `test_function i` is the behaviour of
the i-th dispatched invocation of the work function; `completion` lists the
request indices in the order `as_completed` yields their futures (for a real
run it is a permutation of `range num_requests`); `env` carries the measured
wall-clock duration and the resource samples.  `ThreadPoolExecutor` raises
`ValueError` when `max_workers <= 0`, modelled by `Except.error`; otherwise
the metrics are computed exactly as in the source. -/
def load_test (test_function : ℕ → WorkOutcome) (num_requests concurrent_users : ℤ)
    (completion : List ℕ) (env : RunEnv) : Except String PerformanceMetrics :=
  if concurrent_users ≤ 0 then
    Except.error "ValueError: max_workers must be greater than 0"
  else
    let results := run_results test_function completion
    let latencies := collect_latencies results
    let errors := collect_errors results
    let cpu : ℚ := if env.cpu_samples = [] then 0 else npMean env.cpu_samples
    let mem : ℚ := if env.memory_samples = [] then 0 else npMean env.memory_samples
    if latencies ≠ [] then
      Except.ok
        { total_requests := num_requests
          successful_requests := (latencies.length : ℤ)
          failed_requests := (errors.length : ℤ)
          avg_latency_ms := npMean latencies
          min_latency_ms := npMin latencies
          max_latency_ms := npMax latencies
          p50_latency_ms := npPercentile latencies 50
          p95_latency_ms := npPercentile latencies 95
          p99_latency_ms := npPercentile latencies 99
          throughput_rps := (latencies.length : ℚ) / env.total_duration
          total_duration_s := env.total_duration
          cpu_usage_percent := cpu
          memory_usage_mb := mem }
    else
      Except.ok
        { total_requests := num_requests
          successful_requests := 0
          failed_requests := (errors.length : ℤ)
          avg_latency_ms := 0
          min_latency_ms := 0
          max_latency_ms := 0
          p50_latency_ms := 0
          p95_latency_ms := 0
          p99_latency_ms := 0
          throughput_rps := 0
          total_duration_s := env.total_duration
          cpu_usage_percent := cpu
          memory_usage_mb := mem }

/-- Per-iteration environment of `stress_test`: the behaviour of the work
function, the completion order and the run environment of the load test this
iteration performs. -/
structure IterEnv where
  test_function : ℕ → WorkOutcome
  completion : List ℕ
  run_env : RunEnv

/-- The concurrency level the body of the `stress_test` loop computes at
elapsed time `elapsed`: during ramp-up the Python `int` truncation of
`(elapsed / ramp_up_seconds) * max_concurrent_users`, afterwards
`max_concurrent_users`; in both cases clamped from below by `max 1`. -/
def current_users (elapsed ramp_up_seconds : ℚ) (max_concurrent_users : ℤ) : ℤ :=
  let u : ℤ :=
    if elapsed < ramp_up_seconds then
      pythonInt ((elapsed / ramp_up_seconds) * (max_concurrent_users : ℚ))
    else max_concurrent_users
  max 1 u

/-- The `while` loop of `stress_test`.  `clock` lists, for each potential
iteration, the pair of elapsed-time readings the loop takes: first the guard
reading `time.time() - start_time`, then the body reading `elapsed`; `envs i`
is the environment of the load test run in iteration `i`. -/
def stress_test_loop (envs : ℕ → IterEnv) (duration_seconds ramp_up_seconds : ℚ)
    (max_concurrent_users : ℤ) :
    List (ℚ × ℚ) → ℕ → List (Except String PerformanceMetrics)
  | [], _ => []
  | c :: rest, i =>
    if c.1 < duration_seconds then
      let users := current_users c.2 ramp_up_seconds max_concurrent_users
      load_test (envs i).test_function (users * 10) users (envs i).completion
          (envs i).run_env ::
        stress_test_loop envs duration_seconds ramp_up_seconds max_concurrent_users rest (i + 1)
    else []

/-- `PerformanceTester.stress_test`: runs `load_test` at rising concurrency
while the elapsed time stays below `duration_seconds`, collecting one metrics
value per iteration. -/
def stress_test (envs : ℕ → IterEnv) (duration_seconds ramp_up_seconds : ℚ)
    (max_concurrent_users : ℤ) (clock : List (ℚ × ℚ)) :
    List (Except String PerformanceMetrics) :=
  stress_test_loop envs duration_seconds ramp_up_seconds max_concurrent_users clock 0

/-- The percentile computation in the words of the specification: sort the
list ascending and interpolate linearly between the order statistics at
fractional index `h = (p / 100) * (n - 1)`, that is, return
`(1 - frac) * s[⌊h⌋] + frac * s[⌊h⌋ + 1]` with `frac = h - ⌊h⌋`. -/
def spec_percentile (xs : List ℚ) (p : ℚ) : ℚ :=
  let s := xs.insertionSort (· ≤ ·)
  let h : ℚ := (p / 100) * ((s.length : ℚ) - 1)
  let frac : ℚ := h - (⌊h⌋ : ℚ)
  (1 - frac) * s.getD (⌊h⌋).toNat 0 + frac * s.getD ((⌊h⌋).toNat + 1) 0

/-- The ramp-up concurrency in the words of the claim about `stress_test`:
the ceiling of `(t / ramp_up) * max_concurrency`, clamped to the interval
`[1, max_concurrency]`. -/
def spec_ramp_users (t ramp_up : ℚ) (max_concurrency : ℤ) : ℤ :=
  min (max 1 ⌈(t / ramp_up) * (max_concurrency : ℚ)⌉) max_concurrency

/-- A concrete work function for witnesses: even-numbered requests succeed
with a latency of 5 ms, odd-numbered ones raise. -/
def sample_work : ℕ → WorkOutcome :=
  fun i => if i % 2 = 0 then WorkOutcome.ok 5 else WorkOutcome.err "boom"

/-- A concrete work function for witnesses that raises on every call. -/
def failing_work : ℕ → WorkOutcome := fun _ => WorkOutcome.err "boom"

/-- A concrete run environment for witnesses: one second of wall-clock
duration, no resource samples. -/
def sample_env : RunEnv :=
  { total_duration := 1, cpu_samples := [], memory_samples := [] }

/-- A concrete per-iteration environment for `stress_test` witnesses. -/
def sample_iter_env : IterEnv :=
  { test_function := failing_work, completion := [], run_env := sample_env }

/-- Unfolding of `run_results` over a cons cell. -/
theorem run_results_cons (f : ℕ → WorkOutcome) (j : ℕ) (rest : List ℕ) :
    run_results f (j :: rest) = _execute_request (f j) :: run_results f rest := rfl

@[simp]
theorem WorkOutcome.isOk_ok (l : ℚ) : (WorkOutcome.ok l).isOk = true := rfl

@[simp]
theorem WorkOutcome.isOk_err (m : String) : (WorkOutcome.err m).isOk = false := rfl

/-- A successful result contributes its latency to the latency list. -/
theorem collect_latencies_cons_ok (l : ℚ) (rs : List RequestResult) :
    collect_latencies (_execute_request (WorkOutcome.ok l) :: rs) =
      l :: collect_latencies rs := rfl

/-- A failed result contributes nothing to the latency list. -/
theorem collect_latencies_cons_err (m : String) (rs : List RequestResult) :
    collect_latencies (_execute_request (WorkOutcome.err m) :: rs) =
      collect_latencies rs := rfl

/-- A successful result contributes nothing to the error list. -/
theorem collect_errors_cons_ok (l : ℚ) (rs : List RequestResult) :
    collect_errors (_execute_request (WorkOutcome.ok l) :: rs) = collect_errors rs := rfl

/-- A failed result contributes its message to the error list. -/
theorem collect_errors_cons_err (m : String) (rs : List RequestResult) :
    collect_errors (_execute_request (WorkOutcome.err m) :: rs) =
      m :: collect_errors rs := rfl

/-- A successful request contributes exactly one latency and no error. -/
theorem length_collect_latencies (f : ℕ → WorkOutcome) (completion : List ℕ) :
    (collect_latencies (run_results f completion)).length =
      completion.countP fun i => (f i).isOk := by
  induction completion with
  | nil => rfl
  | cons j rest ih =>
    rw [run_results_cons]
    cases hj : f j
    · rw [collect_latencies_cons_ok]
      simp [List.countP_cons, hj, ih]
    · rw [collect_latencies_cons_err]
      simp [List.countP_cons, hj, ih]

/-- A failed request contributes exactly one error and no latency. -/
theorem length_collect_errors (f : ℕ → WorkOutcome) (completion : List ℕ) :
    (collect_errors (run_results f completion)).length =
      completion.countP fun i => !(f i).isOk := by
  induction completion with
  | nil => rfl
  | cons j rest ih =>
    rw [run_results_cons]
    cases hj : f j
    · rw [collect_errors_cons_ok]
      simp [List.countP_cons, hj, ih]
    · rw [collect_errors_cons_err]
      simp [List.countP_cons, hj, ih]

/-- Every dispatched request lands in exactly one of the two collection
lists, so the two lengths add up to the number of completed requests. -/
theorem length_latencies_add_errors (f : ℕ → WorkOutcome) (completion : List ℕ) :
    (collect_latencies (run_results f completion)).length +
        (collect_errors (run_results f completion)).length = completion.length := by
  rw [length_collect_latencies, length_collect_errors]
  simpa using (List.length_eq_countP_add_countP (fun i => (f i).isOk) completion).symm

/-- When every completed invocation failed, no latency is collected. -/
theorem collect_latencies_of_all_fail (f : ℕ → WorkOutcome) (completion : List ℕ)
    (hfail : ∀ i ∈ completion, (f i).isOk = false) :
    collect_latencies (run_results f completion) = [] := by
  induction completion with
  | nil => rfl
  | cons j rest ih =>
    rw [run_results_cons]
    have hj : (f j).isOk = false := hfail j (List.mem_cons_self j rest)
    cases hfj : f j
    · rw [hfj] at hj; simp at hj
    · rw [collect_latencies_cons_err]
      exact ih fun i hi => hfail i (List.mem_cons_of_mem j hi)

/-- With a positive worker count and at least one collected latency,
`load_test` returns the fully aggregated metrics record. -/
theorem load_test_eq_full_branch (f : ℕ → WorkOutcome) (n c : ℤ) (completion : List ℕ)
    (env : RunEnv) (hc : 0 < c)
    (hl : collect_latencies (run_results f completion) ≠ []) :
    load_test f n c completion env =
      Except.ok
        { total_requests := n
          successful_requests := ((collect_latencies (run_results f completion)).length : ℤ)
          failed_requests := ((collect_errors (run_results f completion)).length : ℤ)
          avg_latency_ms := npMean (collect_latencies (run_results f completion))
          min_latency_ms := npMin (collect_latencies (run_results f completion))
          max_latency_ms := npMax (collect_latencies (run_results f completion))
          p50_latency_ms := npPercentile (collect_latencies (run_results f completion)) 50
          p95_latency_ms := npPercentile (collect_latencies (run_results f completion)) 95
          p99_latency_ms := npPercentile (collect_latencies (run_results f completion)) 99
          throughput_rps :=
            ((collect_latencies (run_results f completion)).length : ℚ) / env.total_duration
          total_duration_s := env.total_duration
          cpu_usage_percent := if env.cpu_samples = [] then 0 else npMean env.cpu_samples
          memory_usage_mb :=
            if env.memory_samples = [] then 0 else npMean env.memory_samples } := by
  rw [load_test, if_neg (not_le.mpr hc)]
  simp only []
  rw [if_pos hl]

/-- With a positive worker count and no collected latency, `load_test`
returns the zeroed metrics record. -/
theorem load_test_eq_zero_branch (f : ℕ → WorkOutcome) (n c : ℤ) (completion : List ℕ)
    (env : RunEnv) (hc : 0 < c)
    (hl : collect_latencies (run_results f completion) = []) :
    load_test f n c completion env =
      Except.ok
        { total_requests := n
          successful_requests := 0
          failed_requests := ((collect_errors (run_results f completion)).length : ℤ)
          avg_latency_ms := 0
          min_latency_ms := 0
          max_latency_ms := 0
          p50_latency_ms := 0
          p95_latency_ms := 0
          p99_latency_ms := 0
          throughput_rps := 0
          total_duration_s := env.total_duration
          cpu_usage_percent := if env.cpu_samples = [] then 0 else npMean env.cpu_samples
          memory_usage_mb :=
            if env.memory_samples = [] then 0 else npMean env.memory_samples } := by
  rw [load_test, if_neg (not_le.mpr hc)]
  simp only []
  rw [if_neg (by simpa using hl)]

example : pythonInt (3 / 2 : ℚ) = 1 := by norm_num [pythonInt]
example : pythonInt (-(3 / 2) : ℚ) = -1 := by norm_num [pythonInt]
example : npPercentile [1, 3] 50 = 2 := by
  norm_num [npPercentile, interpAt, List.insertionSort, List.orderedInsert]
example : npPercentile [10, 20, 30] 95 = 29 := by
  norm_num [npPercentile, interpAt, List.insertionSort, List.orderedInsert]
example : spec_percentile [10, 20, 30] 95 = 29 := by
  norm_num [spec_percentile, List.insertionSort, List.orderedInsert]
example : npMin [3, 1, 2] = 1 := by decide
example : npMax [3, 1, 2] = 3 := by decide

/-- C1: for every work function, every positive request count and every
positive concurrency, the metrics returned by `load_test` satisfy
`total_requests = num_requests` and
`successful_requests + failed_requests = num_requests`: every dispatched
invocation is counted exactly once, as a success or as a failure. -/
theorem load_test_request_accounting (f : ℕ → WorkOutcome) (n c : ℤ)
    (completion : List ℕ) (env : RunEnv) (hn : 0 < n) (hc : 0 < c)
    (hcomp : completion.Perm (List.range n.toNat)) :
    ∃ m, load_test f n c completion env = Except.ok m ∧
      m.total_requests = n ∧ m.successful_requests + m.failed_requests = n := by
  have hlen : completion.length = n.toNat := by simpa using hcomp.length_eq
  have hsum := length_latencies_add_errors f completion
  by_cases hl : collect_latencies (run_results f completion) = []
  · refine ⟨_, load_test_eq_zero_branch f n c completion env hc hl, rfl, ?_⟩
    have h0 : (collect_latencies (run_results f completion)).length = 0 := by
      rw [hl]; rfl
    show (0 : ℤ) + ((collect_errors (run_results f completion)).length : ℤ) = n
    omega
  · refine ⟨_, load_test_eq_full_branch f n c completion env hc hl, rfl, ?_⟩
    show ((collect_latencies (run_results f completion)).length : ℤ) +
        ((collect_errors (run_results f completion)).length : ℤ) = n
    omega

/-- Witness for C1: a run of two requests through one worker, one success
and one failure, accounted exactly. -/
theorem load_test_request_accounting_witness :
    ∃ m, load_test sample_work 2 1 [1, 0] sample_env = Except.ok m ∧
      m.total_requests = 2 ∧ m.successful_requests + m.failed_requests = 2 :=
  load_test_request_accounting sample_work 2 1 [1, 0] sample_env (by decide) (by decide)
    (by decide)

/-- C3: in a run where every completed invocation of the work function
failed, `load_test` still returns a metrics value (it does not raise), with
`successful_requests = 0` and all latency statistics and the throughput
exactly zero. -/
theorem load_test_all_failures_zeroed (f : ℕ → WorkOutcome) (n c : ℤ)
    (completion : List ℕ) (env : RunEnv) (hc : 0 < c)
    (hfail : ∀ i ∈ completion, (f i).isOk = false) :
    ∃ m, load_test f n c completion env = Except.ok m ∧
      m.successful_requests = 0 ∧ m.avg_latency_ms = 0 ∧ m.min_latency_ms = 0 ∧
      m.max_latency_ms = 0 ∧ m.p50_latency_ms = 0 ∧ m.p95_latency_ms = 0 ∧
      m.p99_latency_ms = 0 ∧ m.throughput_rps = 0 :=
  ⟨_, load_test_eq_zero_branch f n c completion env hc
      (collect_latencies_of_all_fail f completion hfail),
    rfl, rfl, rfl, rfl, rfl, rfl, rfl, rfl⟩

/-- Witness for C3: two always-raising requests still produce a metrics
value with zeroed statistics. -/
theorem load_test_all_failures_zeroed_witness :
    ∃ m, load_test failing_work 2 1 [0, 1] sample_env = Except.ok m ∧
      m.successful_requests = 0 ∧ m.avg_latency_ms = 0 ∧ m.min_latency_ms = 0 ∧
      m.max_latency_ms = 0 ∧ m.p50_latency_ms = 0 ∧ m.p95_latency_ms = 0 ∧
      m.p99_latency_ms = 0 ∧ m.throughput_rps = 0 :=
  load_test_all_failures_zeroed failing_work 2 1 [0, 1] sample_env (by decide) (by decide)

/-- C9: an invocation failure is captured by `_execute_request` as a failure
record carrying the error description, and `load_test` (for any work
function, also one failing on every invocation) returns metrics counting
each completed invocation exactly once as a success or as a failure, rather
than raising or aborting the remaining invocations. -/
theorem execute_request_captures_failures (f : ℕ → WorkOutcome) (n c : ℤ)
    (completion : List ℕ) (env : RunEnv) (hc : 0 < c) :
    (∀ msg, _execute_request (WorkOutcome.err msg) =
      { success := false, latency := none, error := some msg }) ∧
    ∃ m, load_test f n c completion env = Except.ok m ∧
      m.successful_requests = ((completion.countP fun i => (f i).isOk : ℕ) : ℤ) ∧
      m.failed_requests = ((completion.countP fun i => !(f i).isOk : ℕ) : ℤ) := by
  refine ⟨fun msg => rfl, ?_⟩
  have hlat := length_collect_latencies f completion
  have herr := length_collect_errors f completion
  by_cases hl : collect_latencies (run_results f completion) = []
  · refine ⟨_, load_test_eq_zero_branch f n c completion env hc hl, ?_, ?_⟩
    · have h0 : (collect_latencies (run_results f completion)).length = 0 := by
        rw [hl]; rfl
      show (0 : ℤ) = _
      omega
    · show ((collect_errors (run_results f completion)).length : ℤ) = _
      omega
  · refine ⟨_, load_test_eq_full_branch f n c completion env hc hl, ?_, ?_⟩
    · show ((collect_latencies (run_results f completion)).length : ℤ) = _
      omega
    · show ((collect_errors (run_results f completion)).length : ℤ) = _
      omega

/-- Witness for C9: a run whose invocations all raise is fully captured in
the failure count. -/
theorem execute_request_captures_failures_witness :
    (∀ msg, _execute_request (WorkOutcome.err msg) =
      { success := false, latency := none, error := some msg }) ∧
    ∃ m, load_test failing_work 3 2 [2, 0, 1] sample_env = Except.ok m ∧
      m.successful_requests = (([2, 0, 1].countP fun i => (failing_work i).isOk : ℕ) : ℤ) ∧
      m.failed_requests = (([2, 0, 1].countP fun i => !(failing_work i).isOk : ℕ) : ℤ) :=
  execute_request_captures_failures failing_work 3 2 [2, 0, 1] sample_env (by decide)

/-- Counterexample to C2: the call `load_test` with `num_requests = 0` and
`concurrent_users = 1` is not rejected; it returns a metrics value. -/
theorem load_test_zero_requests_returns_metrics :
    load_test failing_work 0 1 [] sample_env =
      Except.ok
        { total_requests := 0, successful_requests := 0, failed_requests := 0,
          avg_latency_ms := 0, min_latency_ms := 0, max_latency_ms := 0,
          p50_latency_ms := 0, p95_latency_ms := 0, p99_latency_ms := 0,
          throughput_rps := 0, total_duration_s := 1,
          cpu_usage_percent := 0, memory_usage_mb := 0 } := rfl

/-- C2 as amended: only `concurrent_users <= 0` is rejected synchronously
before any dispatch (the `ValueError` of `ThreadPoolExecutor`); a call with
`num_requests <= 0` and positive concurrency is accepted, dispatches no
invocation, and returns metrics with the given total and zero counts. -/
theorem load_test_config_validation (f : ℕ → WorkOutcome) (n c : ℤ)
    (completion : List ℕ) (env : RunEnv) :
    (c ≤ 0 → load_test f n c completion env =
      Except.error "ValueError: max_workers must be greater than 0") ∧
    (0 < c → n ≤ 0 → completion.Perm (List.range n.toNat) →
      ∃ m, load_test f n c completion env = Except.ok m ∧ m.total_requests = n ∧
        m.successful_requests = 0 ∧ m.failed_requests = 0) := by
  constructor
  · intro hc
    rw [load_test, if_pos hc]
  · intro hc hn hcomp
    have hnil : completion = [] := by
      have : n.toNat = 0 := by omega
      rw [this] at hcomp
      simpa using hcomp
    subst hnil
    exact ⟨_, load_test_eq_zero_branch f n c [] env hc rfl, rfl, rfl, rfl⟩

/-- Witness for the amended C2: concurrency `0` is rejected; a request count
of `-3` with one worker yields an empty run. -/
theorem load_test_config_validation_witness :
    (load_test failing_work 5 0 [] sample_env =
      Except.error "ValueError: max_workers must be greater than 0") ∧
    ∃ m, load_test failing_work (-3) 1 [] sample_env = Except.ok m ∧
      m.total_requests = -3 ∧ m.successful_requests = 0 ∧ m.failed_requests = 0 :=
  ⟨(load_test_config_validation failing_work 5 0 [] sample_env).1 (by decide),
    (load_test_config_validation failing_work (-3) 1 [] sample_env).2 (by decide) (by decide)
      (by decide)⟩

/-- The `stress_test` loop, characterized in closed form: it runs one
iteration for every leading clock reading whose guard is below the duration,
and iteration `i` performs a load test at the concurrency derived from the
body reading of that iteration. -/
theorem stress_test_loop_eq (envs : ℕ → IterEnv) (duration_seconds ramp_up_seconds : ℚ)
    (max_concurrent_users : ℤ) :
    ∀ (clock : List (ℚ × ℚ)) (i : ℕ),
      stress_test_loop envs duration_seconds ramp_up_seconds max_concurrent_users clock i =
        ((clock.takeWhile fun c => decide (c.1 < duration_seconds)).enumFrom i).map fun p =>
          load_test (envs p.1).test_function
            (current_users p.2.2 ramp_up_seconds max_concurrent_users * 10)
            (current_users p.2.2 ramp_up_seconds max_concurrent_users)
            (envs p.1).completion (envs p.1).run_env
  | [], i => rfl
  | c :: rest, i => by
    rw [stress_test_loop, List.takeWhile_cons]
    by_cases h : c.1 < duration_seconds
    · rw [if_pos h, stress_test_loop_eq envs duration_seconds ramp_up_seconds
        max_concurrent_users rest (i + 1)]
      simp [h]
    · rw [if_neg h]
      simp [h]

/-- C7: every `stress_test` iteration runs `load_test` with a request count
of exactly ten times the concurrency computed for that iteration and with
that concurrency, and the returned timeline lists the resulting metrics in
iteration order, one entry per completed iteration. -/
theorem stress_test_timeline_structure (envs : ℕ → IterEnv)
    (duration_seconds ramp_up_seconds : ℚ) (max_concurrent_users : ℤ)
    (clock : List (ℚ × ℚ)) :
    stress_test envs duration_seconds ramp_up_seconds max_concurrent_users clock =
      ((clock.takeWhile fun c => decide (c.1 < duration_seconds)).enum).map fun p =>
        load_test (envs p.1).test_function
          (current_users p.2.2 ramp_up_seconds max_concurrent_users * 10)
          (current_users p.2.2 ramp_up_seconds max_concurrent_users)
          (envs p.1).completion (envs p.1).run_env := by
  rw [stress_test, stress_test_loop_eq, List.enum]

/-- C10: when the configured duration is not positive, the `stress_test`
loop exits at its first guard check: no iteration runs and the returned
timeline is empty. -/
theorem stress_test_nonpositive_duration (envs : ℕ → IterEnv)
    (duration_seconds ramp_up_seconds : ℚ) (max_concurrent_users : ℤ)
    (clock : List (ℚ × ℚ)) (hdur : duration_seconds ≤ 0)
    (hclock : ∀ c ∈ clock, 0 ≤ c.1) :
    stress_test envs duration_seconds ramp_up_seconds max_concurrent_users clock = [] := by
  cases clock with
  | nil => rfl
  | cons c rest =>
    have h0 : 0 ≤ c.1 := hclock c (List.mem_cons_self c rest)
    rw [stress_test, stress_test_loop, if_neg (not_lt.mpr (hdur.trans h0))]

/-- Witness for C10: a zero duration and a clock starting at elapsed time
zero produce the empty timeline. -/
theorem stress_test_nonpositive_duration_witness :
    stress_test (fun _ => sample_iter_env) 0 10 50 [(0, 0)] = [] :=
  stress_test_nonpositive_duration (fun _ => sample_iter_env) 0 10 50 [(0, 0)]
    (by decide) (by decide)

/-- Counterexample to C6: at elapsed time 3 of a 20-second ramp-up towards
10 users, the loop computes `int((3/20)*10) = int(1.5) = 1` concurrent user,
while the claimed formula `ceil((3/20)*10)` clamped to `[1, 10]` gives 2;
the iteration therefore runs its load test at concurrency 1, not 2. -/
theorem stress_test_ramp_counterexample :
    stress_test (fun _ => sample_iter_env) 100 20 10 [(3, 3)] =
      [load_test failing_work (1 * 10) 1 [] sample_env] ∧
    spec_ramp_users 3 20 10 = 2 := by
  constructor
  · rw [stress_test, stress_test_loop, if_pos (by norm_num)]
    have hu : current_users 3 20 10 = 1 := by
      norm_num [current_users, pythonInt]
    rw [hu]
    rfl
  · have hc : ⌈((3 : ℚ) / 20) * ((10 : ℤ) : ℚ)⌉ = 2 := by
      rw [show ((3 : ℚ) / 20) * ((10 : ℤ) : ℚ) = 3 / 2 by push_cast; ring]
      rw [Int.ceil_eq_iff]
      norm_num
    rw [spec_ramp_users, hc]
    decide

/-- C6 as amended: in every iteration starting at elapsed time `t ≥ 0` with
`t < ramp_up`, the concurrency is the floor (Python `int` truncation) of
`(t / ramp_up) * max_concurrency`, clamped from below to 1, and it always
lies in `[1, max_concurrency]` when `max_concurrency ≥ 1`; for
`t ≥ ramp_up` it equals `max_concurrency`. -/
theorem current_users_formula (t ramp_up_seconds : ℚ) (max_concurrent_users : ℤ)
    (ht : 0 ≤ t) (hmax : 1 ≤ max_concurrent_users) :
    (t < ramp_up_seconds →
      current_users t ramp_up_seconds max_concurrent_users =
        max 1 ⌊(t / ramp_up_seconds) * (max_concurrent_users : ℚ)⌋ ∧
      1 ≤ current_users t ramp_up_seconds max_concurrent_users ∧
      current_users t ramp_up_seconds max_concurrent_users ≤ max_concurrent_users) ∧
    (ramp_up_seconds ≤ t →
      current_users t ramp_up_seconds max_concurrent_users = max_concurrent_users) := by
  constructor
  · intro htr
    have hr : 0 < ramp_up_seconds := lt_of_le_of_lt ht htr
    have hm0 : (0 : ℚ) < (max_concurrent_users : ℚ) := by
      exact_mod_cast lt_of_lt_of_le Int.zero_lt_one hmax
    have hx0 : 0 ≤ (t / ramp_up_seconds) * (max_concurrent_users : ℚ) :=
      mul_nonneg (div_nonneg ht hr.le) hm0.le
    have hpy : pythonInt ((t / ramp_up_seconds) * (max_concurrent_users : ℚ)) =
        ⌊(t / ramp_up_seconds) * (max_concurrent_users : ℚ)⌋ := by
      rw [pythonInt, if_neg (not_lt.mpr hx0)]
    have hcu : current_users t ramp_up_seconds max_concurrent_users =
        max 1 ⌊(t / ramp_up_seconds) * (max_concurrent_users : ℚ)⌋ := by
      simp only [current_users]
      rw [if_pos htr, hpy]
    refine ⟨hcu, ?_, ?_⟩
    · rw [hcu]; exact le_max_left 1 _
    · rw [hcu]
      have hxlt : (t / ramp_up_seconds) * (max_concurrent_users : ℚ) <
          (max_concurrent_users : ℚ) := by
        have h1 : t / ramp_up_seconds < 1 := (div_lt_one hr).mpr htr
        calc (t / ramp_up_seconds) * (max_concurrent_users : ℚ) <
              1 * (max_concurrent_users : ℚ) := by
                exact mul_lt_mul_of_pos_right h1 hm0
          _ = (max_concurrent_users : ℚ) := one_mul _
      exact max_le hmax (Int.floor_lt.mpr hxlt).le
  · intro htr
    have hcu : current_users t ramp_up_seconds max_concurrent_users =
        max 1 max_concurrent_users := by
      simp only [current_users]
      rw [if_neg (not_lt.mpr htr)]
    rw [hcu]
    exact max_eq_right hmax

/-- Witness for the amended C6: elapsed time 3 of a 20-second ramp-up gives
one user (the truncation of 1.5, clamped into `[1, 10]`), and elapsed time
25, past the ramp-up, gives the full 10 users. -/
theorem current_users_formula_witness :
    (current_users 3 20 10 = max 1 ⌊((3 : ℚ) / 20) * ((10 : ℤ) : ℚ)⌋ ∧
      1 ≤ current_users 3 20 10 ∧ current_users 3 20 10 ≤ 10) ∧
    current_users 25 20 10 = 10 :=
  ⟨(current_users_formula 3 20 10 (by decide) (by decide)).1 (by decide),
    (current_users_formula 25 20 10 (by decide) (by decide)).2 (by decide)⟩

/-- C8: the throughput of a run is never negative, and for a run with at
least one success it equals the number of successful requests divided by the
single wall-clock span of the run (the `total_duration_s` field), not a
per-request sum. -/
theorem load_test_throughput_formula (f : ℕ → WorkOutcome) (n c : ℤ)
    (completion : List ℕ) (env : RunEnv) (hc : 0 < c)
    (hd : 0 < env.total_duration) :
    ∃ m, load_test f n c completion env = Except.ok m ∧
      m.total_duration_s = env.total_duration ∧ 0 ≤ m.throughput_rps ∧
      (0 < m.successful_requests →
        m.throughput_rps = (m.successful_requests : ℚ) / m.total_duration_s) := by
  by_cases hl : collect_latencies (run_results f completion) = []
  · refine ⟨_, load_test_eq_zero_branch f n c completion env hc hl, rfl, le_refl 0, ?_⟩
    intro h
    exact absurd h (by norm_num)
  · refine ⟨_, load_test_eq_full_branch f n c completion env hc hl, rfl, ?_, ?_⟩
    · show (0 : ℚ) ≤ ((collect_latencies (run_results f completion)).length : ℚ) /
        env.total_duration
      exact div_nonneg (by positivity) hd.le
    · intro _
      show ((collect_latencies (run_results f completion)).length : ℚ) / env.total_duration =
        ((((collect_latencies (run_results f completion)).length : ℤ) : ℚ)) /
          env.total_duration
      norm_num

/-- Witness for C8: two successful requests in one second give a nonnegative
throughput equal to successes over duration. -/
theorem load_test_throughput_formula_witness :
    ∃ m, load_test sample_work 2 1 [0, 2] sample_env = Except.ok m ∧
      m.total_duration_s = sample_env.total_duration ∧ 0 ≤ m.throughput_rps ∧
      (0 < m.successful_requests →
        m.throughput_rps = (m.successful_requests : ℚ) / m.total_duration_s) :=
  load_test_throughput_formula sample_work 2 1 [0, 2] sample_env (by decide) (by decide)

/-- Folding `min` over a list never exceeds the starting accumulator. -/
theorem foldl_min_le_init (rest : List ℚ) : ∀ acc : ℚ, rest.foldl min acc ≤ acc := by
  induction rest with
  | nil => exact fun acc => le_refl acc
  | cons r t ih =>
    intro acc
    rw [List.foldl_cons]
    exact le_trans (ih (min acc r)) (min_le_left acc r)

/-- Folding `min` over a list never exceeds any member of the list. -/
theorem foldl_min_le_mem (rest : List ℚ) (x : ℚ) (hx : x ∈ rest) :
    ∀ acc : ℚ, rest.foldl min acc ≤ x := by
  induction rest with
  | nil => cases hx
  | cons r t ih =>
    intro acc
    rw [List.foldl_cons]
    rcases List.mem_cons.mp hx with rfl | hx2
    · exact le_trans (foldl_min_le_init t (min acc x)) (min_le_right acc x)
    · exact ih hx2 (min acc r)

/-- Folding `min` over a list yields the accumulator or a member. -/
theorem foldl_min_mem (rest : List ℚ) :
    ∀ acc : ℚ, rest.foldl min acc = acc ∨ rest.foldl min acc ∈ rest := by
  induction rest with
  | nil => exact fun acc => Or.inl rfl
  | cons r t ih =>
    intro acc
    rw [List.foldl_cons]
    rcases ih (min acc r) with h | h
    · rcases min_choice acc r with h2 | h2
      · exact Or.inl (h.trans h2)
      · exact Or.inr (by rw [h, h2]; exact List.mem_cons_self r t)
    · exact Or.inr (List.mem_cons_of_mem r h)

/-- The starting accumulator never exceeds a `max` fold. -/
theorem init_le_foldl_max (rest : List ℚ) : ∀ acc : ℚ, acc ≤ rest.foldl max acc := by
  induction rest with
  | nil => exact fun acc => le_refl acc
  | cons r t ih =>
    intro acc
    rw [List.foldl_cons]
    exact le_trans (le_max_left acc r) (ih (max acc r))

/-- No member of a list exceeds a `max` fold over it. -/
theorem mem_le_foldl_max (rest : List ℚ) (x : ℚ) (hx : x ∈ rest) :
    ∀ acc : ℚ, x ≤ rest.foldl max acc := by
  induction rest with
  | nil => cases hx
  | cons r t ih =>
    intro acc
    rw [List.foldl_cons]
    rcases List.mem_cons.mp hx with rfl | hx2
    · exact le_trans (le_max_right acc x) (init_le_foldl_max t (max acc x))
    · exact ih hx2 (max acc r)

/-- Folding `max` over a list yields the accumulator or a member. -/
theorem foldl_max_mem (rest : List ℚ) :
    ∀ acc : ℚ, rest.foldl max acc = acc ∨ rest.foldl max acc ∈ rest := by
  induction rest with
  | nil => exact fun acc => Or.inl rfl
  | cons r t ih =>
    intro acc
    rw [List.foldl_cons]
    rcases ih (max acc r) with h | h
    · rcases max_choice acc r with h2 | h2
      · exact Or.inl (h.trans h2)
      · exact Or.inr (by rw [h, h2]; exact List.mem_cons_self r t)
    · exact Or.inr (List.mem_cons_of_mem r h)

/-- `np.min` is a lower bound of the list. -/
theorem npMin_le_of_mem (xs : List ℚ) (x : ℚ) (hx : x ∈ xs) : npMin xs ≤ x := by
  cases xs with
  | nil => cases hx
  | cons y rest =>
    rcases List.mem_cons.mp hx with rfl | h
    · exact foldl_min_le_init rest x
    · exact foldl_min_le_mem rest x h y

/-- `np.min` of a nonempty list is one of its members. -/
theorem npMin_mem (xs : List ℚ) (hne : xs ≠ []) : npMin xs ∈ xs := by
  cases xs with
  | nil => exact absurd rfl hne
  | cons y rest =>
    show rest.foldl min y ∈ y :: rest
    rcases foldl_min_mem rest y with h | h
    · rw [h]; exact List.mem_cons_self y rest
    · exact List.mem_cons_of_mem y h

/-- `np.max` is an upper bound of the list. -/
theorem mem_le_npMax (xs : List ℚ) (x : ℚ) (hx : x ∈ xs) : x ≤ npMax xs := by
  cases xs with
  | nil => cases hx
  | cons y rest =>
    rcases List.mem_cons.mp hx with rfl | h
    · exact init_le_foldl_max rest x
    · exact mem_le_foldl_max rest x h y

/-- `np.max` of a nonempty list is one of its members. -/
theorem npMax_mem (xs : List ℚ) (hne : xs ≠ []) : npMax xs ∈ xs := by
  cases xs with
  | nil => exact absurd rfl hne
  | cons y rest =>
    show rest.foldl max y ∈ y :: rest
    rcases foldl_max_mem rest y with h | h
    · rw [h]; exact List.mem_cons_self y rest
    · exact List.mem_cons_of_mem y h

/-- On a sorted list, `getD` with in-range indices is monotone. -/
theorem sorted_getD_mono (s : List ℚ) (hs : List.Sorted (· ≤ ·) s) {i j : ℕ}
    (hij : i ≤ j) (hj : j < s.length) : s.getD i 0 ≤ s.getD j 0 := by
  have hi : i < s.length := lt_of_le_of_lt hij hj
  rw [List.getD_eq_getElem s 0 hi, List.getD_eq_getElem s 0 hj]
  have h2 : s.get ⟨i, hi⟩ ≤ s.get ⟨j, hj⟩ :=
    List.Sorted.rel_get_of_le hs (show (⟨i, hi⟩ : Fin s.length) ≤ ⟨j, hj⟩ from hij)
  simpa using h2

/-- An in-range `getD` is a member of the list. -/
theorem getD_mem_of_lt (s : List ℚ) {i : ℕ} (hi : i < s.length) : s.getD i 0 ∈ s := by
  rw [List.getD_eq_getElem s 0 hi]
  exact List.getElem_mem hi

/-- The floor of a fractional index bounded by `n - 1` is at most `n - 1`. -/
theorem floor_le_of_le_sub_one (s : List ℚ) {h : ℚ} (hle : h ≤ (s.length : ℚ) - 1) :
    ⌊h⌋ ≤ (s.length : ℤ) - 1 := by
  have h2 : ((s.length : ℚ) - 1) = (((s.length : ℤ) - 1 : ℤ) : ℚ) := by push_cast; ring
  have h3 := Int.floor_mono hle
  rwa [h2, Int.floor_intCast] at h3

/-- The interpolated value at `h` lies between its two bounding order
statistics. -/
theorem interpAt_bounds (s : List ℚ) (hs : List.Sorted (· ≤ ·) s) (hne : s ≠ [])
    {h : ℚ} (h0 : 0 ≤ h) (h1 : h ≤ (s.length : ℚ) - 1) :
    s.getD (⌊h⌋).toNat 0 ≤ interpAt s h ∧
      interpAt s h ≤ s.getD (min ((⌊h⌋).toNat + 1) (s.length - 1)) 0 := by
  have hn1 : 1 ≤ s.length := List.length_pos.mpr hne
  have hfl0 : (0 : ℤ) ≤ ⌊h⌋ := Int.floor_nonneg.mpr h0
  have hfln : ⌊h⌋ ≤ (s.length : ℤ) - 1 := floor_le_of_le_sub_one s h1
  have hhi_lt : min ((⌊h⌋).toNat + 1) (s.length - 1) < s.length := by omega
  have hab : s.getD (⌊h⌋).toNat 0 ≤ s.getD (min ((⌊h⌋).toNat + 1) (s.length - 1)) 0 :=
    sorted_getD_mono s hs (by omega) hhi_lt
  have hfr0 : 0 ≤ h - (⌊h⌋ : ℚ) := sub_nonneg.mpr (Int.floor_le h)
  have hfr1 : h - (⌊h⌋ : ℚ) ≤ 1 := by
    have := Int.lt_floor_add_one h
    linarith
  constructor
  · have hmul : 0 ≤ (h - (⌊h⌋ : ℚ)) *
        (s.getD (min ((⌊h⌋).toNat + 1) (s.length - 1)) 0 - s.getD (⌊h⌋).toNat 0) :=
      mul_nonneg hfr0 (sub_nonneg.mpr hab)
    simp only [interpAt]
    linarith
  · have hmul : (h - (⌊h⌋ : ℚ)) *
        (s.getD (min ((⌊h⌋).toNat + 1) (s.length - 1)) 0 - s.getD (⌊h⌋).toNat 0) ≤
        1 * (s.getD (min ((⌊h⌋).toNat + 1) (s.length - 1)) 0 - s.getD (⌊h⌋).toNat 0) :=
      mul_le_mul_of_nonneg_right hfr1 (sub_nonneg.mpr hab)
    simp only [interpAt]
    linarith

/-- Monotonicity of linear interpolation over a sorted list: a larger
fractional index never yields a smaller value. -/
theorem interpAt_mono (s : List ℚ) (hs : List.Sorted (· ≤ ·) s) (hne : s ≠ [])
    {h₁ h₂ : ℚ} (h0 : 0 ≤ h₁) (h12 : h₁ ≤ h₂) (h2 : h₂ ≤ (s.length : ℚ) - 1) :
    interpAt s h₁ ≤ interpAt s h₂ := by
  have hn1 : 1 ≤ s.length := List.length_pos.mpr hne
  by_cases hfl : ⌊h₁⌋ = ⌊h₂⌋
  · have hfl0 : (0 : ℤ) ≤ ⌊h₂⌋ := by
      rw [← hfl]; exact Int.floor_nonneg.mpr h0
    have hfln : ⌊h₂⌋ ≤ (s.length : ℤ) - 1 := floor_le_of_le_sub_one s h2
    have hab : s.getD (⌊h₂⌋).toNat 0 ≤
        s.getD (min ((⌊h₂⌋).toNat + 1) (s.length - 1)) 0 :=
      sorted_getD_mono s hs (by omega) (by omega)
    have key : interpAt s h₂ - interpAt s h₁ = (h₂ - h₁) *
        (s.getD (min ((⌊h₂⌋).toNat + 1) (s.length - 1)) 0 - s.getD (⌊h₂⌋).toNat 0) := by
      simp only [interpAt, hfl]
      ring
    have hnn : 0 ≤ (h₂ - h₁) *
        (s.getD (min ((⌊h₂⌋).toNat + 1) (s.length - 1)) 0 - s.getD (⌊h₂⌋).toNat 0) :=
      mul_nonneg (sub_nonneg.mpr h12) (sub_nonneg.mpr hab)
    linarith
  · have hlt : ⌊h₁⌋ < ⌊h₂⌋ := lt_of_le_of_ne (Int.floor_mono h12) hfl
    have hfl0 : (0 : ℤ) ≤ ⌊h₁⌋ := Int.floor_nonneg.mpr h0
    have hfln : ⌊h₂⌋ ≤ (s.length : ℤ) - 1 := floor_le_of_le_sub_one s h2
    obtain ⟨-, hub⟩ := interpAt_bounds s hs hne h0 (h12.trans h2)
    obtain ⟨hlb, -⟩ := interpAt_bounds s hs hne (h0.trans h12) h2
    refine le_trans hub (le_trans ?_ hlb)
    refine sorted_getD_mono s hs (le_trans (min_le_left _ _) ?_) (by omega)
    omega

/-- Interpolating at fractional index `0` yields the first element. -/
theorem interpAt_zero (s : List ℚ) : interpAt s 0 = s.getD 0 0 := by
  simp [interpAt]

/-- Interpolating at fractional index `n - 1` yields the last element. -/
theorem interpAt_last (s : List ℚ) (hne : s ≠ []) :
    interpAt s ((s.length : ℚ) - 1) = s.getD (s.length - 1) 0 := by
  have hn1 : 1 ≤ s.length := List.length_pos.mpr hne
  have hcast : ((s.length : ℚ) - 1) = (((s.length : ℤ) - 1 : ℤ) : ℚ) := by push_cast; ring
  have hfl : ⌊((s.length : ℚ) - 1)⌋ = (s.length : ℤ) - 1 := by
    rw [hcast, Int.floor_intCast]
  have htn : ((s.length : ℤ) - 1).toNat = s.length - 1 := by omega
  simp only [interpAt, hfl, htn]
  rw [show ((s.length : ℚ) - 1) - (((s.length : ℤ) - 1 : ℤ) : ℚ) = 0 by push_cast; ring,
    zero_mul, add_zero]

/-- The percentile chain over a nonempty latency list: the minimum is below
the 50th percentile, percentiles rise with the rank, and the 99th percentile
is below the maximum. -/
theorem npPercentile_chain (xs : List ℚ) (hne : xs ≠ []) :
    npMin xs ≤ npPercentile xs 50 ∧ npPercentile xs 50 ≤ npPercentile xs 95 ∧
      npPercentile xs 95 ≤ npPercentile xs 99 ∧ npPercentile xs 99 ≤ npMax xs := by
  have hs : List.Sorted (· ≤ ·) (xs.insertionSort (· ≤ ·)) :=
    List.sorted_insertionSort (· ≤ ·) xs
  have hperm : (xs.insertionSort (· ≤ ·)).Perm xs := List.perm_insertionSort (· ≤ ·) xs
  have hsne : xs.insertionSort (· ≤ ·) ≠ [] := by
    intro h
    apply hne
    have hlen := hperm.length_eq
    rw [h] at hlen
    exact List.length_eq_zero.mp hlen.symm
  have hn1 : 1 ≤ (xs.insertionSort (· ≤ ·)).length := List.length_pos.mpr hsne
  have hnn : (0 : ℚ) ≤ ((xs.insertionSort (· ≤ ·)).length : ℚ) - 1 := by
    have h1 : (1 : ℚ) ≤ ((xs.insertionSort (· ≤ ·)).length : ℚ) := by exact_mod_cast hn1
    linarith
  have hval : ∀ p : ℚ, npPercentile xs p =
      interpAt (xs.insertionSort (· ≤ ·))
        ((p / 100) * (((xs.insertionSort (· ≤ ·)).length : ℚ) - 1)) := fun p => rfl
  have hmono : ∀ p q : ℚ, 0 ≤ p → p ≤ q → q ≤ 100 →
      npPercentile xs p ≤ npPercentile xs q := by
    intro p q hp hpq hq
    rw [hval p, hval q]
    refine interpAt_mono (xs.insertionSort (· ≤ ·)) hs hsne
      (mul_nonneg (by positivity) hnn)
      (mul_le_mul_of_nonneg_right (by linarith) hnn) ?_
    calc (q / 100) * (((xs.insertionSort (· ≤ ·)).length : ℚ) - 1) ≤
        1 * (((xs.insertionSort (· ≤ ·)).length : ℚ) - 1) :=
          mul_le_mul_of_nonneg_right (by linarith) hnn
      _ = ((xs.insertionSort (· ≤ ·)).length : ℚ) - 1 := one_mul _
  refine ⟨?_, hmono 50 95 (by norm_num) (by norm_num) (by norm_num),
    hmono 95 99 (by norm_num) (by norm_num) (by norm_num), ?_⟩
  · -- npMin xs ≤ p50
    have h0 : (0 : ℚ) ≤ (50 / 100) * (((xs.insertionSort (· ≤ ·)).length : ℚ) - 1) :=
      mul_nonneg (by norm_num) hnn
    have h1 : (50 / 100) * (((xs.insertionSort (· ≤ ·)).length : ℚ) - 1) ≤
        ((xs.insertionSort (· ≤ ·)).length : ℚ) - 1 := by
      calc (50 / 100) * (((xs.insertionSort (· ≤ ·)).length : ℚ) - 1) ≤
          1 * (((xs.insertionSort (· ≤ ·)).length : ℚ) - 1) :=
            mul_le_mul_of_nonneg_right (by norm_num) hnn
        _ = ((xs.insertionSort (· ≤ ·)).length : ℚ) - 1 := one_mul _
    obtain ⟨hlb, -⟩ := interpAt_bounds (xs.insertionSort (· ≤ ·)) hs hsne h0 h1
    rw [hval 50]
    refine le_trans ?_ hlb
    apply npMin_le_of_mem
    refine hperm.subset (getD_mem_of_lt _ ?_)
    have hfl0 : (0 : ℤ) ≤ ⌊(50 / 100 : ℚ) *
        (((xs.insertionSort (· ≤ ·)).length : ℚ) - 1)⌋ := Int.floor_nonneg.mpr h0
    have hfln := floor_le_of_le_sub_one (xs.insertionSort (· ≤ ·)) h1
    omega
  · -- p99 ≤ npMax xs
    have h0 : (0 : ℚ) ≤ (99 / 100) * (((xs.insertionSort (· ≤ ·)).length : ℚ) - 1) :=
      mul_nonneg (by norm_num) hnn
    have h1 : (99 / 100) * (((xs.insertionSort (· ≤ ·)).length : ℚ) - 1) ≤
        ((xs.insertionSort (· ≤ ·)).length : ℚ) - 1 := by
      calc (99 / 100) * (((xs.insertionSort (· ≤ ·)).length : ℚ) - 1) ≤
          1 * (((xs.insertionSort (· ≤ ·)).length : ℚ) - 1) :=
            mul_le_mul_of_nonneg_right (by norm_num) hnn
        _ = ((xs.insertionSort (· ≤ ·)).length : ℚ) - 1 := one_mul _
    obtain ⟨-, hub⟩ := interpAt_bounds (xs.insertionSort (· ≤ ·)) hs hsne h0 h1
    rw [hval 99]
    refine le_trans hub ?_
    apply mem_le_npMax
    refine hperm.subset (getD_mem_of_lt _ ?_)
    have hfl0 : (0 : ℤ) ≤ ⌊(99 / 100 : ℚ) *
        (((xs.insertionSort (· ≤ ·)).length : ℚ) - 1)⌋ := Int.floor_nonneg.mpr h0
    have hfln := floor_le_of_le_sub_one (xs.insertionSort (· ≤ ·)) h1
    omega

/-- C4: on every run with at least one success, the latency statistics of
the returned metrics are ordered
`min ≤ p50 ≤ p95 ≤ p99 ≤ max`. -/
theorem load_test_latency_order (f : ℕ → WorkOutcome) (n c : ℤ) (completion : List ℕ)
    (env : RunEnv) (hc : 0 < c)
    (hl : collect_latencies (run_results f completion) ≠ []) :
    ∃ m, load_test f n c completion env = Except.ok m ∧ 0 < m.successful_requests ∧
      m.min_latency_ms ≤ m.p50_latency_ms ∧ m.p50_latency_ms ≤ m.p95_latency_ms ∧
      m.p95_latency_ms ≤ m.p99_latency_ms ∧ m.p99_latency_ms ≤ m.max_latency_ms := by
  obtain ⟨h1, h2, h3, h4⟩ := npPercentile_chain (collect_latencies (run_results f completion)) hl
  refine ⟨_, load_test_eq_full_branch f n c completion env hc hl, ?_, h1, h2, h3, h4⟩
  show (0 : ℤ) < ((collect_latencies (run_results f completion)).length : ℤ)
  have := List.length_pos.mpr hl
  omega

/-- Witness for C4: a three-request run with two distinct successful
latencies has ordered latency statistics. -/
theorem load_test_latency_order_witness :
    ∃ m, load_test sample_work 3 2 [1, 2, 0] sample_env = Except.ok m ∧
      0 < m.successful_requests ∧
      m.min_latency_ms ≤ m.p50_latency_ms ∧ m.p50_latency_ms ≤ m.p95_latency_ms ∧
      m.p95_latency_ms ≤ m.p99_latency_ms ∧ m.p99_latency_ms ≤ m.max_latency_ms :=
  load_test_latency_order sample_work 3 2 [1, 2, 0] sample_env (by decide) (by decide)

/-- The interpolation of `interpAt` agrees with the textbook form
`(1 - frac) * s[lo] + frac * s[lo + 1]`: when the fractional part is zero
the upper order statistic has coefficient zero, and otherwise the upper
index is in range so the clipped index equals `lo + 1`. -/
theorem interpAt_eq_spec_form (s : List ℚ) {h : ℚ} (h0 : 0 ≤ h)
    (h1 : h ≤ (s.length : ℚ) - 1) (hn1 : 1 ≤ s.length) :
    interpAt s h = (1 - (h - (⌊h⌋ : ℚ))) * s.getD (⌊h⌋).toNat 0 +
      (h - (⌊h⌋ : ℚ)) * s.getD ((⌊h⌋).toNat + 1) 0 := by
  by_cases hfr : h - (⌊h⌋ : ℚ) = 0
  · simp only [interpAt]
    rw [hfr]
    ring
  · have hlt : (⌊h⌋ : ℚ) < h :=
      lt_of_le_of_ne (Int.floor_le h) (fun heq => hfr (by rw [heq]; ring))
    have hceil : ⌊h⌋ < ⌈h⌉ := Int.lt_ceil.mpr hlt
    have hcle : ⌈h⌉ ≤ (s.length : ℤ) - 1 := by
      apply Int.ceil_le.mpr
      rw [show (((s.length : ℤ) - 1 : ℤ) : ℚ) = (s.length : ℚ) - 1 by push_cast; ring]
      exact h1
    have hfl0 : (0 : ℤ) ≤ ⌊h⌋ := Int.floor_nonneg.mpr h0
    have hmin : min ((⌊h⌋).toNat + 1) (s.length - 1) = (⌊h⌋).toNat + 1 :=
      min_eq_left (by omega)
    simp only [interpAt]
    rw [hmin]
    ring

/-- For percentile ranks between 0 and 100, the value `np.percentile`
computes with its default method is exactly the specified linear
interpolation between order statistics of the ascending sort. -/
theorem npPercentile_eq_spec (xs : List ℚ) (hne : xs ≠ []) (p : ℚ)
    (hp0 : 0 ≤ p) (hp1 : p ≤ 100) : npPercentile xs p = spec_percentile xs p := by
  have hperm : (xs.insertionSort (· ≤ ·)).Perm xs := List.perm_insertionSort (· ≤ ·) xs
  have hsne : xs.insertionSort (· ≤ ·) ≠ [] := by
    intro h
    apply hne
    have hlen := hperm.length_eq
    rw [h] at hlen
    exact List.length_eq_zero.mp hlen.symm
  have hn1 : 1 ≤ (xs.insertionSort (· ≤ ·)).length := List.length_pos.mpr hsne
  have hnn : (0 : ℚ) ≤ ((xs.insertionSort (· ≤ ·)).length : ℚ) - 1 := by
    have h1 : (1 : ℚ) ≤ ((xs.insertionSort (· ≤ ·)).length : ℚ) := by exact_mod_cast hn1
    linarith
  have h0 : (0 : ℚ) ≤ (p / 100) * (((xs.insertionSort (· ≤ ·)).length : ℚ) - 1) :=
    mul_nonneg (by positivity) hnn
  have h1 : (p / 100) * (((xs.insertionSort (· ≤ ·)).length : ℚ) - 1) ≤
      ((xs.insertionSort (· ≤ ·)).length : ℚ) - 1 := by
    calc (p / 100) * (((xs.insertionSort (· ≤ ·)).length : ℚ) - 1) ≤
        1 * (((xs.insertionSort (· ≤ ·)).length : ℚ) - 1) :=
          mul_le_mul_of_nonneg_right (by linarith) hnn
      _ = ((xs.insertionSort (· ≤ ·)).length : ℚ) - 1 := one_mul _
  have key := interpAt_eq_spec_form (xs.insertionSort (· ≤ ·)) h0 h1 hn1
  simp only [npPercentile, spec_percentile]
  exact key

/-- C5: on every run with at least one success, the three reported
percentiles are the standard linear-interpolation percentiles of the
successful-latency list, the average is its arithmetic mean, and the
reported minimum and maximum are a least and a greatest member of that
list. -/
theorem load_test_percentile_definition (f : ℕ → WorkOutcome) (n c : ℤ)
    (completion : List ℕ) (env : RunEnv) (hc : 0 < c)
    (hl : successful_latencies f completion ≠ []) :
    ∃ m, load_test f n c completion env = Except.ok m ∧
      m.p50_latency_ms = spec_percentile (successful_latencies f completion) 50 ∧
      m.p95_latency_ms = spec_percentile (successful_latencies f completion) 95 ∧
      m.p99_latency_ms = spec_percentile (successful_latencies f completion) 99 ∧
      m.avg_latency_ms = (successful_latencies f completion).sum /
        ((successful_latencies f completion).length : ℚ) ∧
      m.min_latency_ms ∈ successful_latencies f completion ∧
      (∀ x ∈ successful_latencies f completion, m.min_latency_ms ≤ x) ∧
      m.max_latency_ms ∈ successful_latencies f completion ∧
      (∀ x ∈ successful_latencies f completion, x ≤ m.max_latency_ms) := by
  have hl2 : collect_latencies (run_results f completion) ≠ [] := hl
  refine ⟨_, load_test_eq_full_branch f n c completion env hc hl2,
    npPercentile_eq_spec _ hl2 50 (by norm_num) (by norm_num),
    npPercentile_eq_spec _ hl2 95 (by norm_num) (by norm_num),
    npPercentile_eq_spec _ hl2 99 (by norm_num) (by norm_num),
    rfl, npMin_mem _ hl2, fun x hx => npMin_le_of_mem _ x hx,
    npMax_mem _ hl2, fun x hx => mem_le_npMax _ x hx⟩

/-- Witness for C5: a run with successful latencies has its statistics tied
to the specified percentile, mean, minimum and maximum of that list. -/
theorem load_test_percentile_definition_witness :
    ∃ m, load_test sample_work 3 2 [1, 2, 0] sample_env = Except.ok m ∧
      m.p50_latency_ms = spec_percentile (successful_latencies sample_work [1, 2, 0]) 50 ∧
      m.p95_latency_ms = spec_percentile (successful_latencies sample_work [1, 2, 0]) 95 ∧
      m.p99_latency_ms = spec_percentile (successful_latencies sample_work [1, 2, 0]) 99 ∧
      m.avg_latency_ms = (successful_latencies sample_work [1, 2, 0]).sum /
        ((successful_latencies sample_work [1, 2, 0]).length : ℚ) ∧
      m.min_latency_ms ∈ successful_latencies sample_work [1, 2, 0] ∧
      (∀ x ∈ successful_latencies sample_work [1, 2, 0], m.min_latency_ms ≤ x) ∧
      m.max_latency_ms ∈ successful_latencies sample_work [1, 2, 0] ∧
      (∀ x ∈ successful_latencies sample_work [1, 2, 0], x ≤ m.max_latency_ms) :=
  load_test_percentile_definition sample_work 3 2 [1, 2, 0] sample_env (by decide) (by decide)
